import Mathlib

/-!
Shallow embedding of the `data-platform` repository: the ingestion
orchestrator (`src/etl/ingest_api.py`), the quality gate
(`src/etl/quality.py`) and the mock source API
(`services/api/app/main.py`).

Modelling conventions:
* Timestamps on the orchestrator side are instants modelled as `Int`
  (seconds).  `datetime.fromisoformat` applied to the API's ISO-8601
  strings is an order isomorphism onto instants, so `submitted_at`
  is carried directly as the parsed instant.
* Monetary values (`float` in the source) are modelled as `Int`; the
  quality gate only compares them with 0, and the embedding of an
  integer-valued payload into floats preserves those comparisons.
* Database rows are explicit lists; the staging relation
  `staging.loan_applications` is a list of rows whose unique key is
  `application_id` (nullable columns are `Option`s, since the gate
  explicitly checks for NULLs).
* Fallible effects (HTTP, database statements, file writes) are driven
  by an `Env` record that says, for each call site, whether the call
  raises and with which message; exceptions are `Except String`.
-/

set_option autoImplicit false

namespace DataPlatform

/-- A raw record as returned by the source API and consumed by
`upsert_staging` / `compute_new_watermark` (every field present;
`submitted_at` already parsed to an instant). -/
structure RawRecord where
  application_id : String
  applicant_id : String
  submitted_at : Int
  loan_amount : Int
  purpose : String
  state : String
  annual_income : Int
deriving DecidableEq, Repr

/-- A row of `staging.loan_applications`; every column is nullable at the
storage level (the quality gate checks for NULLs explicitly). -/
structure StagingRow where
  application_id : Option String
  applicant_id : Option String
  submitted_at : Option Int
  loan_amount : Option Int
  purpose : Option String
  state : Option String
  annual_income : Option Int
deriving DecidableEq, Repr

/-- The staging relation, a list of rows. -/
abbrev Staging := List StagingRow

/-- The row inserted for a raw record (all columns non-NULL). -/
def rowOfRecord (r : RawRecord) : StagingRow :=
  ⟨some r.application_id, some r.applicant_id, some r.submitted_at,
   some r.loan_amount, some r.purpose, some r.state, some r.annual_income⟩

/-- Effect of `ON CONFLICT (application_id) DO UPDATE SET ...` on one
existing row: every non-key column is overwritten with the new record's
values; the key column is left as it was. -/
def updateRow (old : StagingRow) (r : RawRecord) : StagingRow :=
  { old with
    applicant_id := some r.applicant_id
    submitted_at := some r.submitted_at
    loan_amount := some r.loan_amount
    purpose := some r.purpose
    state := some r.state
    annual_income := some r.annual_income }

/-- Does the relation contain a row keyed by `k`?  (NULL keys never
conflict with anything, as in SQL.) -/
def hasKey (t : Staging) (k : String) : Bool :=
  t.any (fun row => row.application_id = some k)

/-- The row keyed by `k`, if any. -/
def findRow (t : Staging) (k : String) : Option StagingRow :=
  t.find? (fun row => row.application_id = some k)

/-- In-place update of every row keyed by `k` (the relation's unique
constraint means there is at most one such row). -/
def replaceRow (t : Staging) (k : String) (r : RawRecord) : Staging :=
  t.map (fun row => if row.application_id = some k then updateRow row r else row)

/-- One `INSERT ... ON CONFLICT (application_id) DO UPDATE` statement:
insert the row if the key is absent, otherwise overwrite the existing
row's non-key columns. -/
def upsertOne (t : Staging) (r : RawRecord) : Staging :=
  if hasKey t r.application_id then replaceRow t r.application_id r
  else t ++ [rowOfRecord r]

/-- `cur.executemany` runs the upsert statement once per record, in
order. -/
def upsertList (t : Staging) (records : List RawRecord) : Staging :=
  records.foldl upsertOne t

/-- `upsert_staging(conn, records)` from `src/etl/ingest_api.py`.
Returns the new staging contents, the row count the function returns,
and whether any database statement was issued (the source returns 0
before touching the connection when `records` is empty).  Field parsing
(`fromisoformat`, `float`) is the identity in this embedding since
`RawRecord` already carries parsed values. -/
def upsert_staging (t : Staging) (records : List RawRecord) :
    Staging × Nat × Bool :=
  if records.isEmpty then (t, 0, false)
  else (upsertList t records, records.length, true)

/-- Keys (non-NULL `application_id`s) of the staging relation. -/
def keysOf (t : Staging) : List String :=
  t.filterMap (fun row => row.application_id)

/-- The relation's unique constraint on `application_id`. -/
def NodupKeys (t : Staging) : Prop := (keysOf t).Nodup

instance (t : Staging) : Decidable (NodupKeys t) := by
  unfold NodupKeys; infer_instance

/-- `compute_new_watermark(records)` from `src/etl/ingest_api.py`:
`None` for an empty fetch, otherwise `max(submitted_ats)`. -/
def compute_new_watermark (records : List RawRecord) : Option Int :=
  match records.map (fun r => r.submitted_at) with
  | [] => none
  | t :: ts => some (ts.foldl max t)

/-! ### Quality gate (`src/etl/quality.py`) -/

/-- `QualityResult` dataclass. -/
structure QualityResult where
  passed : Bool
  failures : List String
deriving DecidableEq, Repr

/-- Predicate of the `null_required_fields` check: the row counts as
failing when any required column is NULL. -/
def nullRequired (row : StagingRow) : Bool :=
  row.application_id.isNone || row.applicant_id.isNone ||
  row.submitted_at.isNone || row.loan_amount.isNone ||
  row.purpose.isNone || row.state.isNone || row.annual_income.isNone

/-- Predicate of the `loan_amount_positive` check
(`WHERE loan_amount <= 0`; a NULL comparison selects no row). -/
def loanNonpos (row : StagingRow) : Bool :=
  match row.loan_amount with
  | some a => a ≤ 0
  | none => false

/-- Predicate of the `annual_income_positive` check
(`WHERE annual_income <= 0`). -/
def incomeNonpos (row : StagingRow) : Bool :=
  match row.annual_income with
  | some a => a ≤ 0
  | none => false

/-- Predicate of the `submitted_at_future_guard` check
(`WHERE submitted_at > now + INTERVAL 5 minutes`, times in seconds). -/
def futureSkew (now : Int) (row : StagingRow) : Bool :=
  match row.submitted_at with
  | some s => now + 300 < s
  | none => false

/-- The fixed check list of `run_staging_checks`, in source order; each
entry pairs the check name with the row predicate its `COUNT(*)` query
counts. -/
def gateChecks (now : Int) : List (String × (StagingRow → Bool)) :=
  [("null_required_fields", nullRequired),
   ("loan_amount_positive", loanNonpos),
   ("annual_income_positive", incomeNonpos),
   ("submitted_at_future_guard", futureSkew now)]

/-- `SELECT COUNT(*) ... WHERE <predicate>` over the staging relation. -/
def countFailing (t : Staging) (p : StagingRow → Bool) : Nat :=
  (t.filter p).length

/-- The failure line appended for a failing check. -/
def failureLine (t : Staging) (c : String × (StagingRow → Bool)) : String :=
  c.1 ++ ": " ++ toString (countFailing t c.2) ++ " failing rows"

/-- `run_staging_checks(conn)` from `src/etl/quality.py`: loop over the
checks in order, append one line per check whose count is positive,
`passed` iff no line was appended. -/
def run_staging_checks (now : Int) (t : Staging) : QualityResult :=
  let failures := (gateChecks now).foldl
    (fun acc c =>
      if 0 < countFailing t c.2 then acc ++ [failureLine t c] else acc) []
  { passed := failures.isEmpty, failures := failures }

/-! ### Mock source API (`services/api/app/main.py`)

The mock API manipulates `datetime` values field-wise (`replace`), so
here timestamps are calendar-like values with explicit day / hour /
minute / second fields (`day` is an abstract day index; microseconds are
always zeroed together with seconds and are omitted).  Python's
`datetime.replace` raises `ValueError` on an out-of-range field; the
embedding returns `Except`. -/

/-- A UTC wall-clock instant as the mock API sees it. -/
structure DT where
  day : Nat
  hour : Nat
  minute : Nat
  second : Nat
deriving DecidableEq, Repr

/-- Python `datetime` comparison: lexicographic on the fields. -/
def dtLe (a b : DT) : Bool :=
  a.day < b.day ||
  (a.day = b.day && (a.hour < b.hour ||
    (a.hour = b.hour && (a.minute < b.minute ||
      (a.minute = b.minute && a.second ≤ b.second)))))

/-- Seconds-since-day-zero, the mock's `int(submitted_at.timestamp())`
up to the (irrelevant) epoch offset of the abstract day index. -/
def dtTimestamp (d : DT) : Nat :=
  ((d.day * 24 + d.hour) * 60 + d.minute) * 60 + d.second

/-- `datetime.replace(minute=m)`: `ValueError` unless `0 <= m <= 59`. -/
def replaceMinute (d : DT) (m : Nat) : Except String DT :=
  if m ≤ 59 then .ok { d with minute := m }
  else .error "minute must be in 0..59"

/-- `datetime.replace(hour=h, minute=m)`: `ValueError` unless the fields
are in range. -/
def replaceHourMinute (d : DT) (h m : Nat) : Except String DT :=
  if h ≤ 23 then
    if m ≤ 59 then .ok { d with hour := h, minute := m }
    else .error "minute must be in 0..59"
  else .error "hour must be in 0..23"

def STATES : List String :=
  ["NY", "NJ", "PA", "CT", "MA", "FL", "GA", "TX", "CA", "IL"]

def PURPOSES : List String :=
  ["debt_consolidation", "home_improvement", "auto", "medical", "small_business"]

/-- A generated loan application.  `application_id` and `applicant_id`
are fresh random UUIDs in the source and are not modelled; the remaining
fields are the deterministic functions of `submitted_at` from
`_fake_record`. -/
structure LoanApp where
  submitted_at : DT
  loan_amount : Nat
  purpose : String
  state : String
  annual_income : Nat
deriving DecidableEq, Repr

/-- `_fake_record(submitted_at)` (minus the random UUID fields). -/
def fakeRecord (d : DT) : LoanApp :=
  { submitted_at := d
    loan_amount := 5000 + dtTimestamp d % 20000
    purpose := PURPOSES.getD (dtTimestamp d % 5) ""
    state := STATES.getD (dtTimestamp d % 10) ""
    annual_income := 40000 + dtTimestamp d % 90000 }

/-- The `while len(records) < limit` generation loop of the
`/loan_applications` handler: zero the seconds, advance the cursor by
one minute via `replace` (rolling the hour at minute 59), stop at `now`
or at `limit` records.  `remaining` is `limit - len(records)`, which
strictly decreases on every appended record. -/
def genLoop (now : DT) (cursor : DT) (remaining : Nat) :
    Except String (List DT) :=
  match remaining with
  | 0 => .ok []
  | n + 1 =>
    let c0 : DT := { cursor with second := 0 }
    let step : Except String DT :=
      if c0.minute < 59 then replaceMinute c0 (c0.minute + 1)
      else replaceHourMinute c0 (c0.hour + 1) 0
    match step with
    | .error e => .error e
    | .ok c =>
      if dtLe now c then .ok []
      else
        match genLoop now c n with
        | .error e => .error e
        | .ok rest => .ok (c :: rest)

/-- The `/loan_applications` handler with current time `now`:
`since = none` takes the "default: last 60 minutes" branch
(`start = now.replace(second=0, microsecond=0)` then
`start.replace(minute=max(0, start.minute - 60))`, Python integer
arithmetic, hence the `Int` detour); otherwise `start` is the parsed
`since`.  The response is one fake record per generated cursor. -/
def loan_applications (since : Option DT) (limit : Nat) (now : DT) :
    Except String (List LoanApp) :=
  let startE : Except String DT :=
    match since with
    | none =>
      let s : DT := { now with second := 0 }
      replaceMinute s (Int.toNat (max 0 ((s.minute : Int) - 60)))
    | some s => .ok s
  match startE with
  | .error e => .error e
  | .ok start =>
    match genLoop now start limit with
    | .error e => .error e
    | .ok cursors => .ok (cursors.map fakeRecord)

/-! ### Ingestion orchestrator (`src/etl/ingest_api.py`) -/

/-- A row of `metadata.pipeline_runs`.  `started_at` / `finished_at`
are wall-clock side data and are not modelled. -/
structure RunRow where
  run_id : String
  pipeline_name : String
  status : String
  row_count : Option Nat
  error_message : Option String
deriving DecidableEq, Repr

/-- Database + filesystem state visible to one orchestrator run.
`ingestion` is the `metadata.ingestion_state` row for the source:
`none` = no row, `some v` = a row with `last_ingested_at = v`.
`bronze` maps a run id to the archived payload of that run's object. -/
structure St where
  ingestion : Option (Option Int)
  staging : Staging
  runs : List RunRow
  bronze : List (String × List RawRecord)
deriving DecidableEq, Repr

/-- One observable external call of a run, in the order `main` makes
them. -/
inductive Event where
  | createRun
  | ensureState
  | loadWatermark
  | apiFetch
  | bronzeWrite (run_id : String) (records : List RawRecord)
  | stagingUpsert (count : Nat)
  | gateEval (passed : Bool)
  | watermarkSet (wm : Int)
  | finishRun (status : String)
deriving DecidableEq, Repr

/-- Position of each call in `main`'s source order, used to state that
the side effects of a run are strictly ordered. -/
def eventStage : Event → Nat
  | .createRun => 0
  | .ensureState => 1
  | .loadWatermark => 2
  | .apiFetch => 3
  | .bronzeWrite _ _ => 4
  | .stagingUpsert _ => 5
  | .gateEval _ => 6
  | .watermarkSet _ => 7
  | .finishRun _ => 8

/-- Fault-injection environment for one run: the fresh run id, the
clock, what the extraction client returns (`.error` = transport failure
or non-2xx), and for each database / filesystem call site whether that
call raises and with which message. -/
structure Env where
  runId : String
  pipelineName : String
  now : Int
  fetchResult : Except String (List RawRecord)
  createRunErr : Option String
  ensureErr : Option String
  getWmErr : Option String
  bronzeErr : Option String
  upsertErr : Option String
  gateErr : Option String
  setWmErr : Option String
  finishSuccessErr : Option String
  finishFailedErr : Option String
deriving Repr

/-- `ensure_ingestion_state`: `INSERT ... ON CONFLICT DO NOTHING` with a
NULL watermark. -/
def ensure_ingestion_state (ing : Option (Option Int)) : Option (Option Int) :=
  match ing with
  | none => some none
  | some v => some v

/-- `get_watermark`: `fetchone()` returns the row's value, or `None`
when the row is absent. -/
def get_watermark (ing : Option (Option Int)) : Option Int :=
  match ing with
  | some v => v
  | none => none

/-- `set_watermark`: an `UPDATE` that silently matches no row when the
ingestion-state row is absent. -/
def set_watermark (ing : Option (Option Int)) (wm : Int) : Option (Option Int) :=
  match ing with
  | some _ => some (some wm)
  | none => none

/-- `create_pipeline_run`: insert the run row in status `running`. -/
def create_pipeline_run (runs : List RunRow) (runId pipelineName : String) :
    List RunRow :=
  runs ++ [{ run_id := runId, pipeline_name := pipelineName,
             status := "running", row_count := none, error_message := none }]

/-- `finish_pipeline_run`: `UPDATE ... WHERE run_id = ...`, setting
status, row count and error message on every matching row. -/
def finish_pipeline_run (runs : List RunRow) (runId status : String)
    (rowCount : Option Nat) (errMsg : Option String) : List RunRow :=
  runs.map (fun row =>
    if row.run_id = runId then
      { row with status := status, row_count := rowCount, error_message := errMsg }
    else row)

/-- `write_bronze_jsonl`: one new archive object per run id holding the
verbatim payload (the date partition of the path is not modelled). -/
def write_bronze_jsonl (bronze : List (String × List RawRecord))
    (records : List RawRecord) (runId : String) :
    List (String × List RawRecord) :=
  bronze ++ [(runId, records)]

/-- The `try:` block of `main` — steps create-run through
finish-success.  Returns the state, the trace of calls that completed,
and either the row count (normal return) or the message of the first
exception. -/
def runBody (env : Env) (st0 : St) : St × List Event × Except String Nat :=
  match env.createRunErr with
  | some e => (st0, [], .error e)
  | none =>
  let st1 : St :=
    { st0 with runs := create_pipeline_run st0.runs env.runId env.pipelineName }
  match env.ensureErr with
  | some e => (st1, [.createRun], .error e)
  | none =>
  let st2 : St := { st1 with ingestion := ensure_ingestion_state st1.ingestion }
  match env.getWmErr with
  | some e => (st2, [.createRun, .ensureState], .error e)
  | none =>
  match env.fetchResult with
  | .error e => (st2, [.createRun, .ensureState, .loadWatermark], .error e)
  | .ok records =>
  match env.bronzeErr with
  | some e =>
    (st2, [.createRun, .ensureState, .loadWatermark, .apiFetch], .error e)
  | none =>
  let st3 : St :=
    { st2 with bronze := write_bronze_jsonl st2.bronze records env.runId }
  match (if records.isEmpty then none else env.upsertErr) with
  | some e =>
    (st3, [.createRun, .ensureState, .loadWatermark, .apiFetch,
           .bronzeWrite env.runId records], .error e)
  | none =>
  let up := upsert_staging st3.staging records
  let st4 : St := { st3 with staging := up.1 }
  let rowCount := up.2.1
  match env.gateErr with
  | some e =>
    (st4, [.createRun, .ensureState, .loadWatermark, .apiFetch,
           .bronzeWrite env.runId records, .stagingUpsert rowCount], .error e)
  | none =>
  let quality := run_staging_checks env.now st4.staging
  if quality.passed then
    match compute_new_watermark records with
    | some wm =>
      (match env.setWmErr with
       | some e =>
         (st4, [.createRun, .ensureState, .loadWatermark, .apiFetch,
                .bronzeWrite env.runId records, .stagingUpsert rowCount,
                .gateEval true], .error e)
       | none =>
         let st5 : St := { st4 with ingestion := set_watermark st4.ingestion wm }
         match env.finishSuccessErr with
         | some e =>
           (st5, [.createRun, .ensureState, .loadWatermark, .apiFetch,
                  .bronzeWrite env.runId records, .stagingUpsert rowCount,
                  .gateEval true, .watermarkSet wm], .error e)
         | none =>
           ({ st5 with runs := finish_pipeline_run st5.runs env.runId "success"
                         (some rowCount) none },
            [.createRun, .ensureState, .loadWatermark, .apiFetch,
             .bronzeWrite env.runId records, .stagingUpsert rowCount,
             .gateEval true, .watermarkSet wm, .finishRun "success"],
            .ok rowCount))
    | none =>
      match env.finishSuccessErr with
      | some e =>
        (st4, [.createRun, .ensureState, .loadWatermark, .apiFetch,
               .bronzeWrite env.runId records, .stagingUpsert rowCount,
               .gateEval true], .error e)
      | none =>
        ({ st4 with runs := finish_pipeline_run st4.runs env.runId "success"
                      (some rowCount) none },
         [.createRun, .ensureState, .loadWatermark, .apiFetch,
          .bronzeWrite env.runId records, .stagingUpsert rowCount,
          .gateEval true, .finishRun "success"],
         .ok rowCount)
  else
    (st4, [.createRun, .ensureState, .loadWatermark, .apiFetch,
           .bronzeWrite env.runId records, .stagingUpsert rowCount,
           .gateEval false],
     .error ("Data quality checks failed: " ++
             String.intercalate " | " quality.failures))

/-- `main()`: run the `try:` block; on any exception, best-effort-record
the run as failed (a failure of that recording is swallowed by the
inner `except Exception: pass`) and re-raise the original exception. -/
def runMain (env : Env) (st0 : St) : St × List Event × Except String Unit :=
  match runBody env st0 with
  | (st, tr, .ok _) => (st, tr, .ok ())
  | (st, tr, .error e) =>
    match env.finishFailedErr with
    | some _ => (st, tr, .error e)
    | none =>
      ({ st with runs := finish_pipeline_run st.runs env.runId "failed"
                   none (some e) },
       tr ++ [.finishRun "failed"], .error e)


/-! ### Concrete fixtures used by witness runs -/

deriving instance DecidableEq for Except

/-- A valid raw record. -/
def recA : RawRecord :=
  { application_id := "app-1", applicant_id := "cust-1", submitted_at := 900,
    loan_amount := 12000, purpose := "auto", state := "NY",
    annual_income := 85000 }

/-- A second valid raw record with a later `submitted_at`. -/
def recB : RawRecord :=
  { application_id := "app-2", applicant_id := "cust-2", submitted_at := 950,
    loan_amount := 7000, purpose := "medical", state := "NJ",
    annual_income := 60000 }

/-- A newer version of `recA` (same key, different non-key fields). -/
def recA2 : RawRecord :=
  { recA with submitted_at := 960, loan_amount := 9000 }

/-- A staging row that violates the `loan_amount_positive` check. -/
def badRow : StagingRow :=
  { application_id := some "app-0", applicant_id := some "cust-0",
    submitted_at := some 100, loan_amount := some 0, purpose := some "auto",
    state := some "NY", annual_income := some 50000 }

/-- Clean initial state with watermark 500. -/
def stEmpty : St :=
  { ingestion := some (some 500), staging := [], runs := [], bronze := [] }

/-- Initial state whose staging already contains a bad row. -/
def stBad : St := { stEmpty with staging := [badRow] }

/-- A fault-free environment fetching two valid records. -/
def envBase : Env :=
  { runId := "run-1", pipelineName := "ingest_api_loan_applications",
    now := 1000, fetchResult := .ok [recA, recB], createRunErr := none,
    ensureErr := none, getWmErr := none, bronzeErr := none, upsertErr := none,
    gateErr := none, setWmErr := none, finishSuccessErr := none,
    finishFailedErr := none }

/-- Fault-free environment whose fetch returns an empty result set. -/
def envEmptyFetch : Env := { envBase with fetchResult := .ok [] }

/-- Environment whose staging upsert raises. -/
def envMergeFail : Env :=
  { envBase with upsertErr := some "staging upsert failed" }

/-- Environment whose extraction call raises a transport failure. -/
def envFetchFail : Env :=
  { envBase with fetchResult := .error "connection refused" }

/-! ## Helper lemmas -/

/-- Accumulating a line per passing element (the failure-collection loop
of `run_staging_checks`) is filter-then-map. -/
theorem foldl_accum_eq_filter_map {α β : Type} (p : α → Prop) [DecidablePred p]
    (f : α → β) :
    ∀ (L : List α) (init : List β),
      L.foldl (fun acc x => if p x then acc ++ [f x] else acc) init
        = init ++ (L.filter (fun x => decide (p x))).map f
  | [], init => by simp
  | x :: L, init => by
    by_cases h : p x <;>
      simp [h, foldl_accum_eq_filter_map p f L, List.filter_cons]

/-! ## Claims -/

/-- C5: the quality gate evaluates all four checks without
short-circuiting, accumulating failures; `passed` is true iff zero
checks report any failing row, and each failing check contributes
exactly one line `"<check-name>: <N> failing rows"` (in check order). -/
theorem quality_gate_accumulates_all_checks (now : Int) (t : Staging) :
    ((run_staging_checks now t).passed = true ↔
      ∀ c ∈ gateChecks now, countFailing t c.2 = 0) ∧
    (run_staging_checks now t).failures =
      ((gateChecks now).filter (fun c => 0 < countFailing t c.2)).map
        (failureLine t) := by
  simp only [run_staging_checks]
  rw [foldl_accum_eq_filter_map]
  simp only [List.nil_append]
  refine ⟨?_, trivial⟩
  rw [List.isEmpty_iff, List.map_eq_nil_iff, List.filter_eq_nil_iff]
  constructor
  · intro h c hc
    have h2 := h c hc
    simp only [decide_eq_true_eq] at h2
    omega
  · intro h c hc
    have h2 := h c hc
    simp only [decide_eq_true_eq]
    omega

/-- C9: `upsert_staging` on an empty record sequence returns 0, leaves
the staging relation unchanged and issues no database write. -/
theorem upsert_staging_empty_noop (t : Staging) :
    upsert_staging t [] = (t, 0, false) := rfl

/-- C10: the mock API's record-generation loop is not total — for a
`since` in the last hour of a UTC day and a `now` past midnight, the
hand-rolled minute/hour increment reaches 23:59 and `replace(hour=24)`
raises, so the `/loan_applications` handler fails instead of returning
a list. -/
theorem mock_api_generator_not_total :
    loan_applications (some ⟨0, 23, 57, 0⟩) 50 ⟨1, 0, 30, 0⟩ =
      .error "hour must be in 0..23" := rfl

/-- C8 (failing input): with `since` null and `now = 12:30:00`, the
handler's "default: last 60 minutes" branch actually starts at the top
of the current hour: it returns 29 records with `submitted_at`
12:01..12:29, not a window covering the 60 minutes preceding `now`
(which would begin at 11:31 and contain at least the 50 requested
records). -/
theorem mock_api_default_window_failing_input :
    (loan_applications none 50 ⟨0, 12, 30, 0⟩).map
        (fun l => l.map (fun a => a.submitted_at)) =
      .ok ((List.range 29).map (fun i => ⟨0, 12, i + 1, 0⟩)) := rfl


theorem runBody_trace_spec (env : Env) (st0 : St) :
    ((runBody env st0).2.1.map eventStage).Chain' (· < ·) ∧
    (∀ e, (runBody env st0).2.2 = .error e →
      ∀ ev ∈ (runBody env st0).2.1, eventStage ev ≤ 7) := by
  unfold runBody
  rcases h1 : env.createRunErr with _ | e1
  case some => simp [eventStage]
  rcases h2 : env.ensureErr with _ | e2
  case some => simp [eventStage]
  rcases h3 : env.getWmErr with _ | e3
  case some => simp [eventStage]
  rcases h4 : env.fetchResult with e4 | records
  case error => simp [eventStage]
  rcases h5 : env.bronzeErr with _ | e5
  case some => simp [eventStage]
  rcases records with _ | ⟨r0, rs0⟩
  case nil =>
    simp only [List.isEmpty_nil, if_true, reduceIte]
    rcases h7 : env.gateErr with _ | e7
    case some => simp [eventStage]
    rcases h8 : (run_staging_checks env.now (upsert_staging st0.staging []).1).passed
    case false => simp [h8, eventStage]
    rcases h11 : env.finishSuccessErr with _ | e11
    case some => simp [h8, eventStage, compute_new_watermark]
    simp [h8, eventStage, compute_new_watermark]
  case cons =>
    simp only [List.isEmpty_cons, if_false, reduceIte]
    rcases h6 : env.upsertErr with _ | e6
    case some => simp [eventStage]
    rcases h7 : env.gateErr with _ | e7
    case some => simp [eventStage]
    rcases h8 : (run_staging_checks env.now (upsert_staging st0.staging (r0 :: rs0)).1).passed
    case false => simp [h8, eventStage]
    rcases h9 : compute_new_watermark (r0 :: rs0) with _ | wm
    case none => simp [compute_new_watermark] at h9
    rcases h10 : env.setWmErr with _ | e10
    case some => simp [h8, h9, eventStage]
    rcases h11 : env.finishSuccessErr with _ | e11
    case some => simp [h8, h9, eventStage]
    simp [h8, h9, eventStage]

/-- C4: in every run the side effects are strictly ordered (archive before
merge, merge before gate, gate before watermark advance, each preceded by
run creation, watermark load and fetch); consequently, if the merge step
fails, the bronze archive object for the run already exists and contains
the full fetched payload, and the merge error is what propagates. -/
theorem run_side_effects_strictly_ordered (env : Env) (st0 : St) :
    ((runMain env st0).2.1.map eventStage).Chain' (· < ·) ∧
    (∀ e records,
      env.createRunErr = none → env.ensureErr = none → env.getWmErr = none →
      env.fetchResult = .ok records → env.bronzeErr = none →
      env.upsertErr = some e → records ≠ [] →
      (env.runId, records) ∈ (runMain env st0).1.bronze ∧
      (runMain env st0).2.2 = .error e) := by
  constructor
  · have hspec := runBody_trace_spec env st0
    unfold runMain
    rcases hb : runBody env st0 with ⟨st, tr, res⟩
    rw [hb] at hspec
    rcases res with e | n
    · rcases hff : env.finishFailedErr with _ | f
      · simp only []
        rw [List.map_append, List.chain'_append]
        refine ⟨hspec.1, by simp, ?_⟩
        intro x hx y hy
        simp only [List.map_cons, List.map_nil, List.head?_cons, Option.mem_def,
          Option.some.injEq] at hy
        have hx' : x ∈ tr.map eventStage := by
          rcases List.mem_getLast?_eq_getLast hx with ⟨hne, hxe⟩
          exact hxe ▸ List.getLast_mem hne
        rcases List.mem_map.mp hx' with ⟨ev, hev, hevx⟩
        have := hspec.2 e rfl ev hev
        subst hy
        subst hevx
        simp [eventStage] at this ⊢
        omega
      · exact hspec.1
    · exact hspec.1
  · intro e records h1 h2 h3 h4 h5 h6 h7
    rcases records with _ | ⟨r0, rs0⟩
    · exact absurd rfl h7
    unfold runMain runBody
    rw [h1, h2, h3, h4, h5]
    simp only [List.isEmpty_cons, Bool.false_eq_true, if_false, reduceIte, h6]
    rcases hff : env.finishFailedErr with _ | f <;>
      simp [write_bronze_jsonl]

theorem runBody_indep_ff (env : Env) (f : Option String) (st0 : St) :
    runBody { env with finishFailedErr := f } st0 = runBody env st0 := by
  cases env
  rfl

/-- C7: every exception raised during the run's steps is caught once at
the top level and re-raised; the failed-run record is best-effort: the
original error propagates regardless of what the failure-recording call
does, and when recording succeeds the run row is updated to `failed`
with the original message. -/
theorem exception_recorded_and_reraised (env : Env) (st0 : St) (e : String)
    (hbody : (runBody env st0).2.2 = .error e) :
    (runMain env st0).2.2 = .error e ∧
    (∀ f, (runMain { env with finishFailedErr := f } st0).2.2 = .error e) ∧
    (env.finishFailedErr = none →
      (runMain env st0).1.runs =
        finish_pipeline_run (runBody env st0).1.runs env.runId "failed"
          none (some e)) := by
  refine ⟨?_, ?_, ?_⟩
  · unfold runMain
    rcases hb : runBody env st0 with ⟨st, tr, res⟩
    rw [hb] at hbody
    simp only at hbody
    subst hbody
    rcases env.finishFailedErr with _ | f <;> simp
  · intro f
    unfold runMain
    rw [runBody_indep_ff]
    rcases hb : runBody env st0 with ⟨st, tr, res⟩
    rw [hb] at hbody
    simp only at hbody
    subst hbody
    rcases f with _ | f' <;> simp
  · intro hff
    unfold runMain
    rcases hb : runBody env st0 with ⟨st, tr, res⟩
    rw [hb] at hbody
    simp only at hbody
    subst hbody
    rw [hff]

theorem get_watermark_ensure (ing : Option (Option Int)) :
    get_watermark (ensure_ingestion_state ing) = get_watermark ing := by
  cases ing <;> rfl

theorem find_finish_create (runs : List RunRow) (rid pn status : String)
    (rc : Option Nat) (em : Option String)
    (h : ∀ row ∈ runs, row.run_id ≠ rid) :
    (finish_pipeline_run (create_pipeline_run runs rid pn) rid status rc em).find?
        (fun row => row.run_id = rid) =
      some { run_id := rid, pipeline_name := pn, status := status,
             row_count := rc, error_message := em } := by
  induction runs with
  | nil => simp [create_pipeline_run, finish_pipeline_run]
  | cons r rs ih =>
    have hr : r.run_id ≠ rid := h r (by simp)
    simp only [create_pipeline_run, finish_pipeline_run, List.cons_append,
      List.map_cons, if_neg hr]
    rw [List.find?_cons_of_neg]
    · exact ih (fun row hrow => h row (by simp [hrow]))
    · simp [hr]

theorem runMain_trace_cases (env : Env) (st0 : St) :
    (runMain env st0).2.1 = (runBody env st0).2.1 ∨
    (runMain env st0).2.1 = (runBody env st0).2.1 ++ [.finishRun "failed"] := by
  unfold runMain
  rcases hb : runBody env st0 with ⟨st, tr, res⟩
  rcases res with e | n
  · rcases env.finishFailedErr with _ | f <;> simp
  · simp

theorem runBody_watermark_event (env : Env) (st0 : St) (wm : Int)
    (h : Event.watermarkSet wm ∈ (runBody env st0).2.1) :
    ∃ records, env.fetchResult = .ok records ∧
      compute_new_watermark records = some wm := by
  unfold runBody at h
  rcases h1 : env.createRunErr with _ | e1 <;> rw [h1] at h
  case some => simp at h
  rcases h2 : env.ensureErr with _ | e2 <;> rw [h2] at h
  case some => simp at h
  rcases h3 : env.getWmErr with _ | e3 <;> rw [h3] at h
  case some => simp at h
  rcases h4 : env.fetchResult with e4 | records <;> rw [h4] at h
  case error => simp at h
  rcases h5 : env.bronzeErr with _ | e5 <;> rw [h5] at h
  case some => simp at h
  refine ⟨records, rfl, ?_⟩
  rcases records with _ | ⟨r0, rs0⟩
  · simp only [List.isEmpty_nil, reduceIte] at h
    rcases h7 : env.gateErr with _ | e7 <;> rw [h7] at h
    case some => simp at h
    rcases h8 : (run_staging_checks env.now (upsert_staging st0.staging []).1).passed <;>
      rw [h8] at h
    case false => simp at h
    simp only [if_true] at h
    rcases h11 : env.finishSuccessErr with _ | e11 <;> rw [h11] at h <;>
      simp [compute_new_watermark] at h
  · simp only [List.isEmpty_cons, reduceIte] at h
    rcases h6 : env.upsertErr with _ | e6 <;> rw [h6] at h
    case some => simp at h
    rcases h7 : env.gateErr with _ | e7 <;> rw [h7] at h
    case some => simp at h
    rcases h8 : (run_staging_checks env.now (upsert_staging st0.staging (r0 :: rs0)).1).passed <;>
      rw [h8] at h
    case false => simp at h
    simp only [if_true] at h
    rcases h9 : compute_new_watermark (r0 :: rs0) with _ | wm' <;> rw [h9] at h
    case none => simp [compute_new_watermark] at h9
    rcases h10 : env.setWmErr with _ | e10 <;> rw [h10] at h
    case some => simp at h
    rcases h11 : env.finishSuccessErr with _ | e11 <;> rw [h11] at h <;>
      simp at h <;> rw [h] 

/-- C1: when the quality gate reports failure, the run (whatever the
validity of the fetched records) leaves the observable watermark
unchanged, never emits a watermark-store set call, marks the run failed
with an error message joining all failure descriptions, and propagates
a failure to the caller. -/
theorem gate_failure_blocks_watermark (env : Env) (st0 : St)
    (records : List RawRecord)
    (h1 : env.createRunErr = none) (h2 : env.ensureErr = none)
    (h3 : env.getWmErr = none) (h4 : env.fetchResult = .ok records)
    (h5 : env.bronzeErr = none) (h6 : env.upsertErr = none)
    (h7 : env.gateErr = none) (h8 : env.finishFailedErr = none)
    (h9 : ∀ row ∈ st0.runs, row.run_id ≠ env.runId)
    (hfail : (run_staging_checks env.now
        (upsert_staging st0.staging records).1).passed = false) :
    get_watermark (runMain env st0).1.ingestion = get_watermark st0.ingestion ∧
    (∀ wm, Event.watermarkSet wm ∉ (runMain env st0).2.1) ∧
    (runMain env st0).1.runs.find? (fun row => row.run_id = env.runId) =
      some { run_id := env.runId, pipeline_name := env.pipelineName,
             status := "failed", row_count := none,
             error_message := some ("Data quality checks failed: " ++
               String.intercalate " | " (run_staging_checks env.now
                 (upsert_staging st0.staging records).1).failures) } ∧
    (runMain env st0).2.2 = .error ("Data quality checks failed: " ++
      String.intercalate " | " (run_staging_checks env.now
        (upsert_staging st0.staging records).1).failures) := by
  have hbody : runBody env st0 =
      ({ st0 with
          ingestion := ensure_ingestion_state st0.ingestion
          staging := (upsert_staging st0.staging records).1
          runs := create_pipeline_run st0.runs env.runId env.pipelineName
          bronze := write_bronze_jsonl st0.bronze records env.runId },
       [.createRun, .ensureState, .loadWatermark, .apiFetch,
        .bronzeWrite env.runId records,
        .stagingUpsert (upsert_staging st0.staging records).2.1,
        .gateEval false],
       .error ("Data quality checks failed: " ++ String.intercalate " | "
         (run_staging_checks env.now
           (upsert_staging st0.staging records).1).failures)) := by
    unfold runBody
    rw [h1, h2, h3, h4, h5, h7]
    rcases records with _ | ⟨r0, rs0⟩
    · simp only [List.isEmpty_nil, reduceIte, hfail, Bool.false_eq_true,
        if_false]
    · simp only [List.isEmpty_cons, reduceIte, h6, hfail, Bool.false_eq_true,
        if_false]
  have hmain : runMain env st0 =
      ({ st0 with
          ingestion := ensure_ingestion_state st0.ingestion
          staging := (upsert_staging st0.staging records).1
          runs := finish_pipeline_run
            (create_pipeline_run st0.runs env.runId env.pipelineName)
            env.runId "failed" none
            (some ("Data quality checks failed: " ++ String.intercalate " | "
              (run_staging_checks env.now
                (upsert_staging st0.staging records).1).failures))
          bronze := write_bronze_jsonl st0.bronze records env.runId },
       [.createRun, .ensureState, .loadWatermark, .apiFetch,
        .bronzeWrite env.runId records,
        .stagingUpsert (upsert_staging st0.staging records).2.1,
        .gateEval false, .finishRun "failed"],
       .error ("Data quality checks failed: " ++ String.intercalate " | "
         (run_staging_checks env.now
           (upsert_staging st0.staging records).1).failures)) := by
    unfold runMain
    rw [hbody, h8]
    rfl
  rw [hmain]
  refine ⟨get_watermark_ensure _, ?_, ?_, rfl⟩
  · intro wm
    simp
  · exact find_finish_create st0.runs env.runId env.pipelineName "failed"
      none _ h9

/-- C2 (amended): a run whose extraction returns an empty result set
leaves staging and the watermark unchanged and reports row_count 0, but
it does not skip steps 5-7: an (empty) archive object is written and the
quality gate is evaluated over the pre-existing staging contents, so the
run is recorded success exactly when that evaluation passes, and failed
otherwise. -/
theorem empty_fetch_preserves_state (env : Env) (st0 : St)
    (h1 : env.createRunErr = none) (h2 : env.ensureErr = none)
    (h3 : env.getWmErr = none) (h4 : env.fetchResult = .ok [])
    (h5 : env.bronzeErr = none) (h7 : env.gateErr = none)
    (h8 : env.finishSuccessErr = none) (h8f : env.finishFailedErr = none)
    (h9 : ∀ row ∈ st0.runs, row.run_id ≠ env.runId) :
    (runMain env st0).1.staging = st0.staging ∧
    get_watermark (runMain env st0).1.ingestion = get_watermark st0.ingestion ∧
    Event.bronzeWrite env.runId [] ∈ (runMain env st0).2.1 ∧
    Event.gateEval (run_staging_checks env.now st0.staging).passed ∈
      (runMain env st0).2.1 ∧
    ((run_staging_checks env.now st0.staging).passed = true →
      (runMain env st0).2.2 = .ok () ∧
      (runMain env st0).1.runs.find? (fun row => row.run_id = env.runId) =
        some { run_id := env.runId, pipeline_name := env.pipelineName,
               status := "success", row_count := some 0,
               error_message := none }) ∧
    ((run_staging_checks env.now st0.staging).passed = false →
      (runMain env st0).2.2 = .error ("Data quality checks failed: " ++
        String.intercalate " | "
          (run_staging_checks env.now st0.staging).failures) ∧
      (runMain env st0).1.runs.find? (fun row => row.run_id = env.runId) =
        some { run_id := env.runId, pipeline_name := env.pipelineName,
               status := "failed", row_count := none,
               error_message := some ("Data quality checks failed: " ++
                 String.intercalate " | "
                   (run_staging_checks env.now st0.staging).failures) }) := by
  rcases hp : (run_staging_checks env.now st0.staging).passed
  · -- gate fails on pre-existing staging
    have hbody : runBody env st0 =
        ({ st0 with
            ingestion := ensure_ingestion_state st0.ingestion
            runs := create_pipeline_run st0.runs env.runId env.pipelineName
            bronze := write_bronze_jsonl st0.bronze [] env.runId },
         [.createRun, .ensureState, .loadWatermark, .apiFetch,
          .bronzeWrite env.runId [], .stagingUpsert 0, .gateEval false],
         .error ("Data quality checks failed: " ++ String.intercalate " | "
           (run_staging_checks env.now st0.staging).failures)) := by
      unfold runBody
      rw [h1, h2, h3, h4, h5, h7]
      simp only [List.isEmpty_nil, reduceIte, upsert_staging, hp,
        Bool.false_eq_true, if_false]
    have hmain : runMain env st0 =
        ({ st0 with
            ingestion := ensure_ingestion_state st0.ingestion
            runs := finish_pipeline_run
              (create_pipeline_run st0.runs env.runId env.pipelineName)
              env.runId "failed" none
              (some ("Data quality checks failed: " ++ String.intercalate " | "
                (run_staging_checks env.now st0.staging).failures))
            bronze := write_bronze_jsonl st0.bronze [] env.runId },
         [.createRun, .ensureState, .loadWatermark, .apiFetch,
          .bronzeWrite env.runId [], .stagingUpsert 0, .gateEval false,
          .finishRun "failed"],
         .error ("Data quality checks failed: " ++ String.intercalate " | "
           (run_staging_checks env.now st0.staging).failures)) := by
      unfold runMain
      rw [hbody, h8f]
      rfl
    rw [hmain]
    refine ⟨rfl, get_watermark_ensure _, by simp, by simp [hp], ?_, ?_⟩
    · intro hcon; simp at hcon
    · intro _
      exact ⟨rfl, find_finish_create st0.runs env.runId env.pipelineName
        "failed" none _ h9⟩
  · -- gate passes
    have hbody : runBody env st0 =
        ({ st0 with
            ingestion := ensure_ingestion_state st0.ingestion
            runs := finish_pipeline_run
              (create_pipeline_run st0.runs env.runId env.pipelineName)
              env.runId "success" (some 0) none
            bronze := write_bronze_jsonl st0.bronze [] env.runId },
         [.createRun, .ensureState, .loadWatermark, .apiFetch,
          .bronzeWrite env.runId [], .stagingUpsert 0, .gateEval true,
          .finishRun "success"],
         .ok 0) := by
      unfold runBody
      rw [h1, h2, h3, h4, h5, h7]
      simp only [List.isEmpty_nil, reduceIte, upsert_staging, hp, if_true,
        compute_new_watermark, List.map_nil]
      rw [h8]
    have hmain : runMain env st0 =
        ({ st0 with
            ingestion := ensure_ingestion_state st0.ingestion
            runs := finish_pipeline_run
              (create_pipeline_run st0.runs env.runId env.pipelineName)
              env.runId "success" (some 0) none
            bronze := write_bronze_jsonl st0.bronze [] env.runId },
         [.createRun, .ensureState, .loadWatermark, .apiFetch,
          .bronzeWrite env.runId [], .stagingUpsert 0, .gateEval true,
          .finishRun "success"],
         .ok ()) := by
      unfold runMain
      rw [hbody]
    rw [hmain]
    refine ⟨rfl, get_watermark_ensure _, by simp, by simp [hp], ?_, ?_⟩
    · intro _
      exact ⟨rfl, find_finish_create st0.runs env.runId env.pipelineName
        "success" (some 0) none h9⟩
    · intro hcon; simp at hcon

theorem foldl_max_mem (t : Int) (ts : List Int) : ts.foldl max t ∈ t :: ts := by
  induction ts generalizing t with
  | nil => simp
  | cons y ys ih =>
    rw [List.foldl_cons]
    rcases List.mem_cons.mp (ih (max t y)) with h | h
    · rcases max_choice t y with hc | hc <;> rw [h, hc] <;> simp
    · simp [h]

theorem le_foldl_max (t : Int) (ts : List Int) :
    ∀ x ∈ t :: ts, x ≤ ts.foldl max t := by
  induction ts generalizing t with
  | nil =>
    intro x hx
    simp only [List.mem_singleton] at hx
    simp [hx]
  | cons y ys ih =>
    intro x hx
    rw [List.foldl_cons]
    rcases List.mem_cons.mp hx with h | h
    · subst h
      exact le_trans (le_max_left x y) (ih (max x y) _ (by simp))
    · rcases List.mem_cons.mp h with h2 | h2
      · subst h2
        exact le_trans (le_max_right t x) (ih (max t x) _ (by simp))
      · exact ih (max t y) x (by simp [h2])

theorem compute_new_watermark_spec (records : List RawRecord)
    (hne : records ≠ []) :
    ∃ m, compute_new_watermark records = some m ∧
      (∃ r ∈ records, r.submitted_at = m) ∧
      (∀ r ∈ records, r.submitted_at ≤ m) := by
  rcases records with _ | ⟨r0, rs⟩
  · exact absurd rfl hne
  refine ⟨((rs.map (fun r => r.submitted_at)).foldl max r0.submitted_at),
    by simp [compute_new_watermark], ?_, ?_⟩
  · rcases List.mem_cons.mp
        (foldl_max_mem r0.submitted_at (rs.map (fun r => r.submitted_at))) with
      h | h
    · exact ⟨r0, by simp, h.symm⟩
    · rcases List.mem_map.mp h with ⟨r, hr, hrm⟩
      exact ⟨r, by simp [hr], hrm⟩
  · intro r hr
    rcases List.mem_cons.mp hr with h | h
    · subst h
      exact le_foldl_max _ _ _ (by simp)
    · exact le_foldl_max _ _ _ (by simp; right; exact ⟨r, h, rfl⟩)

theorem get_watermark_set_ensure (ing : Option (Option Int)) (wm : Int) :
    get_watermark (set_watermark (ensure_ingestion_state ing) wm) = some wm := by
  cases ing <;> rfl

/-- C3: watermark-store writes are skipped whenever the fetch is empty,
and on a successful run with non-empty fetched records the watermark
written equals the maximum `submitted_at` among that run's records; it
is attained by some record, bounds all of them, and (for a source that
returns only records strictly after the requested `since`) is never
less than the prior watermark. -/
theorem watermark_advance_on_success (env : Env) (st0 : St)
    (records : List RawRecord)
    (h1 : env.createRunErr = none) (h2 : env.ensureErr = none)
    (h3 : env.getWmErr = none) (h4 : env.fetchResult = .ok records)
    (h5 : env.bronzeErr = none) (h6 : env.upsertErr = none)
    (h7 : env.gateErr = none) (h10 : env.setWmErr = none)
    (h8 : env.finishSuccessErr = none)
    (hne : records ≠ [])
    (hpass : (run_staging_checks env.now
        (upsert_staging st0.staging records).1).passed = true)
    (hsince : ∀ r ∈ records, ∀ w,
      get_watermark st0.ingestion = some w → w < r.submitted_at) :
    (∀ env' : Env, ∀ st' : St, env'.fetchResult = .ok [] →
      ∀ wm, Event.watermarkSet wm ∉ (runMain env' st').2.1) ∧
    ∃ m, compute_new_watermark records = some m ∧
      get_watermark (runMain env st0).1.ingestion = some m ∧
      (∃ r ∈ records, r.submitted_at = m) ∧
      (∀ r ∈ records, r.submitted_at ≤ m) ∧
      (∀ w, get_watermark st0.ingestion = some w → w ≤ m) ∧
      (runMain env st0).2.2 = .ok () := by
  constructor
  · intro env' st' hfe wm hmem
    have : Event.watermarkSet wm ∈ (runBody env' st').2.1 := by
      rcases runMain_trace_cases env' st' with hc | hc <;> rw [hc] at hmem
      · exact hmem
      · rcases List.mem_append.mp hmem with h | h
        · exact h
        · simp at h
    rcases runBody_watermark_event env' st' wm this with ⟨recs, hr, hcw⟩
    rw [hfe] at hr
    injection hr with hr
    subst hr
    simp [compute_new_watermark] at hcw
  · rcases records with _ | ⟨r0, rs⟩
    · exact absurd rfl hne
    obtain ⟨m, hcw, hmem, hub⟩ := compute_new_watermark_spec (r0 :: rs) (by simp)
    have hbody : runBody env st0 =
        ({ st0 with
            ingestion := set_watermark (ensure_ingestion_state st0.ingestion) m
            staging := (upsert_staging st0.staging (r0 :: rs)).1
            runs := finish_pipeline_run
              (create_pipeline_run st0.runs env.runId env.pipelineName)
              env.runId "success"
              (some (upsert_staging st0.staging (r0 :: rs)).2.1) none
            bronze := write_bronze_jsonl st0.bronze (r0 :: rs) env.runId },
         [.createRun, .ensureState, .loadWatermark, .apiFetch,
          .bronzeWrite env.runId (r0 :: rs),
          .stagingUpsert (upsert_staging st0.staging (r0 :: rs)).2.1,
          .gateEval true, .watermarkSet m, .finishRun "success"],
         .ok (upsert_staging st0.staging (r0 :: rs)).2.1) := by
      unfold runBody
      rw [h1, h2, h3, h4, h5, h7]
      simp only [List.isEmpty_cons, Bool.false_eq_true, if_false, h6, hpass,
        if_true, hcw, h10, h8]
    have hmain : runMain env st0 =
        ({ st0 with
            ingestion := set_watermark (ensure_ingestion_state st0.ingestion) m
            staging := (upsert_staging st0.staging (r0 :: rs)).1
            runs := finish_pipeline_run
              (create_pipeline_run st0.runs env.runId env.pipelineName)
              env.runId "success"
              (some (upsert_staging st0.staging (r0 :: rs)).2.1) none
            bronze := write_bronze_jsonl st0.bronze (r0 :: rs) env.runId },
         [.createRun, .ensureState, .loadWatermark, .apiFetch,
          .bronzeWrite env.runId (r0 :: rs),
          .stagingUpsert (upsert_staging st0.staging (r0 :: rs)).2.1,
          .gateEval true, .watermarkSet m, .finishRun "success"],
         .ok ()) := by
      unfold runMain
      rw [hbody]
    refine ⟨m, hcw, ?_, hmem, hub, ?_, ?_⟩
    · rw [hmain]
      exact get_watermark_set_ensure _ _
    · intro w hw
      obtain ⟨r, hr, hrm⟩ := hmem
      exact le_of_lt (hrm ▸ hsince r hr w hw)
    · rw [hmain]

theorem updateRow_application_id (row : StagingRow) (r : RawRecord) :
    (updateRow row r).application_id = row.application_id := rfl

theorem updateRow_eq_rowOfRecord (row : StagingRow) (r : RawRecord)
    (h : row.application_id = some r.application_id) :
    updateRow row r = rowOfRecord r := by
  cases row
  simp_all [updateRow, rowOfRecord]

theorem app_id_of_replace (row : StagingRow) (k : String) (r : RawRecord) :
    (if row.application_id = some k then updateRow row r
     else row).application_id = row.application_id := by
  by_cases h : row.application_id = some k <;>
    simp [h, updateRow_application_id]

theorem keysOf_replaceRow (t : Staging) (k : String) (r : RawRecord) :
    keysOf (replaceRow t k r) = keysOf t := by
  induction t with
  | nil => rfl
  | cons row tl ih =>
    simp only [replaceRow, List.map_cons, keysOf, List.filterMap_cons,
      app_id_of_replace] at ih ⊢
    cases row.application_id <;> simp_all

theorem hasKey_replaceRow (t : Staging) (k : String) (r : RawRecord)
    (k' : String) :
    hasKey (replaceRow t k r) k' = hasKey t k' := by
  induction t with
  | nil => rfl
  | cons row tl ih =>
    simp only [replaceRow, List.map_cons, hasKey, List.any_cons,
      app_id_of_replace] at ih ⊢
    rw [ih]

theorem hasKey_iff_mem_keysOf (t : Staging) (k : String) :
    hasKey t k = true ↔ k ∈ keysOf t := by
  induction t with
  | nil => simp [hasKey, keysOf]
  | cons row tl ih =>
    simp only [hasKey, List.any_cons, keysOf, List.filterMap_cons] at ih ⊢
    rcases h : row.application_id with _ | a
    · simp [ih]
    · simp only [Option.some.injEq, Bool.or_eq_true, decide_eq_true_eq,
        List.mem_cons, ih]
      constructor
      · rintro (rfl | hh)
        · exact Or.inl rfl
        · exact Or.inr hh
      · rintro (rfl | hh)
        · exact Or.inl rfl
        · exact Or.inr hh

theorem findRow_eq_none_of_not_hasKey (t : Staging) (k : String)
    (h : hasKey t k = false) : findRow t k = none := by
  induction t with
  | nil => rfl
  | cons row tl ih =>
    simp only [hasKey, List.any_cons, Bool.or_eq_false_iff] at h
    rw [findRow, List.find?_cons_of_neg]
    · exact ih h.2
    · simp [h.1]

theorem keysOf_append (t1 t2 : Staging) :
    keysOf (t1 ++ t2) = keysOf t1 ++ keysOf t2 := by
  simp [keysOf, List.filterMap_append]

theorem keysOf_upsertOne_of_hasKey (t : Staging) (r : RawRecord)
    (h : hasKey t r.application_id = true) :
    keysOf (upsertOne t r) = keysOf t := by
  rw [upsertOne, if_pos h, keysOf_replaceRow]

theorem keysOf_upsertOne_of_not_hasKey (t : Staging) (r : RawRecord)
    (h : hasKey t r.application_id = false) :
    keysOf (upsertOne t r) = keysOf t ++ [r.application_id] := by
  rw [upsertOne, h]
  simp only [Bool.false_eq_true, if_false]
  rw [keysOf_append]
  rfl

theorem nodup_upsertOne (t : Staging) (r : RawRecord) (h : NodupKeys t) :
    NodupKeys (upsertOne t r) := by
  rcases hk : hasKey t r.application_id with _ | _
  · unfold NodupKeys
    rw [keysOf_upsertOne_of_not_hasKey t r hk]
    rw [List.nodup_append]
    refine ⟨h, by simp, ?_⟩
    intro a ha hb
    simp only [List.mem_singleton] at hb
    subst hb
    rw [← hasKey_iff_mem_keysOf] at ha
    rw [ha] at hk
    cases hk
  · unfold NodupKeys
    rw [keysOf_upsertOne_of_hasKey t r hk]
    exact h

theorem nodup_upsertList (rs : List RawRecord) :
    ∀ t : Staging, NodupKeys t → NodupKeys (upsertList t rs) := by
  induction rs with
  | nil => intro t h; exact h
  | cons r rs' ih =>
    intro t h
    exact ih (upsertOne t r) (nodup_upsertOne t r h)

theorem hasKey_upsertOne_self (t : Staging) (r : RawRecord) :
    hasKey (upsertOne t r) r.application_id = true := by
  rcases hk : hasKey t r.application_id with _ | _
  · rw [upsertOne, hk]
    simp only [Bool.false_eq_true, if_false, hasKey, List.any_append]
    simp [hasKey, rowOfRecord]
  · rw [upsertOne, if_pos hk, hasKey_replaceRow]
    exact hk

theorem hasKey_upsertOne_mono (t : Staging) (r : RawRecord) (k : String)
    (h : hasKey t k = true) : hasKey (upsertOne t r) k = true := by
  rcases hk : hasKey t r.application_id with _ | _
  · rw [upsertOne, hk]
    simp only [Bool.false_eq_true, if_false, hasKey, List.any_append]
    unfold hasKey at h
    simp [h]
  · rw [upsertOne, if_pos hk, hasKey_replaceRow]
    exact h

theorem hasKey_upsertList_mono (rs : List RawRecord) :
    ∀ (t : Staging) (k : String), hasKey t k = true →
      hasKey (upsertList t rs) k = true := by
  induction rs with
  | nil => intro t k h; exact h
  | cons r rs' ih =>
    intro t k h
    exact ih (upsertOne t r) k (hasKey_upsertOne_mono t r k h)

theorem findRow_replaceRow_self (t : Staging) (r : RawRecord)
    (h : hasKey t r.application_id = true) :
    findRow (replaceRow t r.application_id r) r.application_id =
      some (rowOfRecord r) := by
  induction t with
  | nil => cases h
  | cons row tl ih =>
    simp only [hasKey, List.any_cons, Bool.or_eq_true, decide_eq_true_eq] at h
    by_cases hr : row.application_id = some r.application_id
    · simp only [replaceRow, List.map_cons, if_pos hr, findRow]
      rw [List.find?_cons_of_pos]
      · rw [updateRow_eq_rowOfRecord row r hr]
      · simp [updateRow_application_id, hr]
    · rcases h with h | h
      · exact absurd h hr
      · simp only [replaceRow, List.map_cons, if_neg hr, findRow]
        rw [List.find?_cons_of_neg]
        · exact ih (by simpa [hasKey] using h)
        · simp [hr]

theorem findRow_append (t1 t2 : Staging) (k : String) :
    findRow (t1 ++ t2) k =
      (findRow t1 k).or (findRow t2 k) := by
  simp [findRow, List.find?_append]

theorem findRow_upsertOne_self (t : Staging) (r : RawRecord) :
    findRow (upsertOne t r) r.application_id = some (rowOfRecord r) := by
  rcases hk : hasKey t r.application_id with _ | _
  · rw [upsertOne, hk]
    simp only [Bool.false_eq_true, if_false]
    rw [findRow_append, findRow_eq_none_of_not_hasKey t _ hk]
    simp [findRow, rowOfRecord]
  · rw [upsertOne, if_pos hk]
    exact findRow_replaceRow_self t r hk

theorem findRow_replaceRow_ne (t : Staging) (k : String) (r : RawRecord)
    (k' : String) (h : k' ≠ k) :
    findRow (replaceRow t k r) k' = findRow t k' := by
  induction t with
  | nil => rfl
  | cons row tl ih =>
    by_cases hr : row.application_id = some k
    · simp only [replaceRow, List.map_cons, if_pos hr, findRow]
      rw [List.find?_cons_of_neg, List.find?_cons_of_neg]
      · exact ih
      · simp only [hr, decide_eq_true_eq]
        intro hc
        exact h (Option.some.inj hc).symm
      · simp only [updateRow_application_id, hr, decide_eq_true_eq]
        intro hc
        exact h (Option.some.inj hc).symm
    · simp only [replaceRow, List.map_cons, if_neg hr, findRow]
      by_cases hrow : row.application_id = some k'
      · rw [List.find?_cons_of_pos, List.find?_cons_of_pos] <;> simp [hrow]
      · rw [List.find?_cons_of_neg, List.find?_cons_of_neg]
        · exact ih
        · simp [hrow]
        · simp [hrow]

theorem findRow_upsertOne_ne (t : Staging) (r : RawRecord) (k' : String)
    (h : k' ≠ r.application_id) :
    findRow (upsertOne t r) k' = findRow t k' := by
  rcases hk : hasKey t r.application_id with _ | _
  · rw [upsertOne, hk]
    simp only [Bool.false_eq_true, if_false]
    rw [findRow_append]
    have : findRow [rowOfRecord r] k' = none := by
      simp only [findRow, rowOfRecord]
      rw [List.find?_cons_of_neg]
      · rfl
      · simp only [decide_eq_true_eq]
        intro hc
        exact h (Option.some.inj hc).symm
    rw [this]
    cases findRow t k' <;> rfl
  · rw [upsertOne, if_pos hk]
    exact findRow_replaceRow_ne t _ r k' h

theorem findRow_upsertList_notin (rs : List RawRecord) :
    ∀ (t : Staging) (k : String), (∀ r ∈ rs, r.application_id ≠ k) →
      findRow (upsertList t rs) k = findRow t k := by
  induction rs with
  | nil => intro t k _; rfl
  | cons r rs' ih =>
    intro t k h
    have h1 : r.application_id ≠ k := h r (by simp)
    have h2 : ∀ r' ∈ rs', r'.application_id ≠ k :=
      fun r' hr' => h r' (by simp [hr'])
    show findRow (upsertList (upsertOne t r) rs') k = findRow t k
    rw [ih (upsertOne t r) k h2]
    exact findRow_upsertOne_ne t r k (fun hc => h1 hc.symm)

theorem updateRow_updateRow (row : StagingRow) (r r' : RawRecord) :
    updateRow (updateRow row r) r' = updateRow row r' := by
  cases row
  simp [updateRow]

theorem replaceRow_replaceRow_same (t : Staging) (k : String)
    (r r' : RawRecord) :
    replaceRow (replaceRow t k r) k r' = replaceRow t k r' := by
  induction t with
  | nil => rfl
  | cons row tl ih =>
    by_cases h : row.application_id = some k <;>
      simp only [replaceRow, List.map_cons] at ih ⊢ <;>
      simp only [if_pos, if_neg, h, updateRow_application_id, if_true,
        reduceIte, updateRow_updateRow, ih]

theorem replaceRow_comm (t : Staging) (k k' : String) (r r' : RawRecord)
    (h : k ≠ k') :
    replaceRow (replaceRow t k r) k' r' = replaceRow (replaceRow t k' r') k r := by
  induction t with
  | nil => rfl
  | cons row tl ih =>
    simp only [replaceRow, List.map_cons] at ih ⊢
    congr 1
    by_cases h1 : row.application_id = some k
    · have h2 : ¬ row.application_id = some k' := by
        rw [h1]
        intro hc
        exact h (Option.some.inj hc)
      simp [h1, h2, h, updateRow_application_id]
    · by_cases h2 : row.application_id = some k'
      · simp [h1, h2, Ne.symm h, updateRow_application_id]
      · simp [h1, h2]

theorem replaceRow_append (t1 t2 : Staging) (k : String) (r : RawRecord) :
    replaceRow (t1 ++ t2) k r = replaceRow t1 k r ++ replaceRow t2 k r := by
  simp [replaceRow]

theorem upsertOne_of_hasKey (t : Staging) (r : RawRecord)
    (h : hasKey t r.application_id = true) :
    upsertOne t r = replaceRow t r.application_id r := by
  rw [upsertOne, if_pos h]

theorem upsertOne_replaceRow_comm (t : Staging) (k : String) (r r' : RawRecord)
    (h : r'.application_id ≠ k) :
    upsertOne (replaceRow t k r) r' = replaceRow (upsertOne t r') k r := by
  rcases hk : hasKey t r'.application_id with _ | _
  · rw [upsertOne, hasKey_replaceRow, hk]
    simp only [Bool.false_eq_true, if_false]
    rw [upsertOne, hk]
    simp only [Bool.false_eq_true, if_false]
    rw [replaceRow_append]
    congr 1
    simp only [replaceRow, List.map_cons, List.map_nil]
    rw [if_neg]
    simp only [rowOfRecord]
    intro hc
    exact h (Option.some.inj hc)
  · rw [upsertOne, hasKey_replaceRow, hk, if_pos rfl,
      upsertOne, hk, if_pos rfl]
    exact replaceRow_comm t k r'.application_id r r' (fun hc => h hc.symm)

theorem upsertList_replaceRow_cancel (rs : List RawRecord) :
    ∀ (t : Staging) (k : String) (r : RawRecord),
      hasKey t k = true → k ∈ rs.map (fun r' => r'.application_id) →
      upsertList (replaceRow t k r) rs = upsertList t rs := by
  induction rs with
  | nil => intro t k r _ hmem; cases hmem
  | cons r' rs' ih =>
    intro t k r hk hmem
    show upsertList (upsertOne (replaceRow t k r) r') rs' =
      upsertList (upsertOne t r') rs'
    by_cases hkey : r'.application_id = k
    · subst hkey
      rw [upsertOne_of_hasKey _ r' (by rw [hasKey_replaceRow]; exact hk),
        replaceRow_replaceRow_same, ← upsertOne_of_hasKey t r' hk]
    · have hmem' : k ∈ rs'.map (fun r'' => r''.application_id) := by
        rcases List.mem_cons.mp hmem with hc | hc
        · exact absurd hc.symm hkey
        · exact hc
      rw [upsertOne_replaceRow_comm t k r r' hkey]
      exact ih (upsertOne t r') k r
        (hasKey_upsertOne_mono t r' k hk) hmem'

theorem replaceRow_eq_self_of_no_match (t : Staging) (k : String)
    (r : RawRecord) (h : ∀ row ∈ t, row.application_id ≠ some k) :
    replaceRow t k r = t := by
  induction t with
  | nil => rfl
  | cons row tl ih =>
    simp only [replaceRow, List.map_cons]
    rw [if_neg (h row (by simp))]
    congr 1
    exact ih (fun row' hr' => h row' (by simp [hr']))

theorem replaceRow_eq_self (t : Staging) (r : RawRecord)
    (hnd : NodupKeys t)
    (hfind : findRow t r.application_id = some (rowOfRecord r)) :
    replaceRow t r.application_id r = t := by
  induction t with
  | nil => cases hfind
  | cons row tl ih =>
    by_cases hrow : row.application_id = some r.application_id
    · have hhead : row = rowOfRecord r := by
        have h2 := hfind
        simp only [findRow] at h2
        rw [List.find?_cons_of_pos] at h2
        · exact Option.some.inj h2
        · simp [hrow]
      have hrest : replaceRow tl r.application_id r = tl := by
        apply replaceRow_eq_self_of_no_match
        intro row' hr' hc
        have hkey : r.application_id ∈ keysOf tl := by
          rw [← hasKey_iff_mem_keysOf]
          unfold hasKey
          rw [List.any_eq_true]
          exact ⟨row', hr', by simp [hc]⟩
        unfold NodupKeys at hnd
        rw [show keysOf (row :: tl) = r.application_id :: keysOf tl from by
          simp [keysOf, List.filterMap_cons, hrow]] at hnd
        exact (List.nodup_cons.mp hnd).1 hkey
      simp only [replaceRow, List.map_cons, if_pos hrow]
      simp only [replaceRow] at hrest
      rw [hrest, updateRow_eq_rowOfRecord row r hrow, ← hhead]
    · have htl : findRow tl r.application_id = some (rowOfRecord r) := by
        have h2 := hfind
        simp only [findRow] at h2
        rw [List.find?_cons_of_neg] at h2
        · exact h2
        · simp [hrow]
      have hndtl : NodupKeys tl := by
        unfold NodupKeys at hnd ⊢
        rcases happ : row.application_id with _ | a
        · rw [show keysOf (row :: tl) = keysOf tl from by
            simp [keysOf, List.filterMap_cons, happ]] at hnd
          exact hnd
        · rw [show keysOf (row :: tl) = a :: keysOf tl from by
            simp [keysOf, List.filterMap_cons, happ]] at hnd
          exact (List.nodup_cons.mp hnd).2
      have hrest := ih hndtl htl
      simp only [replaceRow, List.map_cons, if_neg hrow]
      simp only [replaceRow] at hrest
      rw [hrest]

theorem upsertList_idem (rs : List RawRecord) :
    ∀ t : Staging, NodupKeys t →
      upsertList (upsertList t rs) rs = upsertList t rs := by
  induction rs with
  | nil => intro t _; rfl
  | cons r rs' ih =>
    intro t h
    have hnd1 : NodupKeys (upsertOne t r) := nodup_upsertOne t r h
    have hkB : hasKey (upsertList (upsertOne t r) rs') r.application_id = true :=
      hasKey_upsertList_mono rs' (upsertOne t r) r.application_id
        (hasKey_upsertOne_self t r)
    show upsertList (upsertOne (upsertList (upsertOne t r) rs') r) rs' =
      upsertList (upsertOne t r) rs'
    rw [upsertOne_of_hasKey _ r hkB]
    by_cases hmem : r.application_id ∈ rs'.map (fun r' => r'.application_id)
    · rw [upsertList_replaceRow_cancel rs' _ r.application_id r hkB hmem]
      exact ih (upsertOne t r) hnd1
    · have hfind : findRow (upsertList (upsertOne t r) rs') r.application_id =
          some (rowOfRecord r) := by
        rw [findRow_upsertList_notin rs' (upsertOne t r) r.application_id
          (fun r' hr' hc => hmem (List.mem_map.mpr ⟨r', hr', hc⟩))]
        exact findRow_upsertOne_self t r
      rw [replaceRow_eq_self _ r (nodup_upsertList rs' _ hnd1) hfind]
      exact ih (upsertOne t r) hnd1

/-- C6: the staging upsert is idempotent and last-write-wins per record:
upserting the same record sequence twice leaves staging identical to
upserting it once, the relation's key uniqueness is preserved (no
duplicate rows), and upserting a record whose `application_id` is
already present overwrites all non-key fields with the new values
while adding no key. -/
theorem staging_upsert_idempotent_lww (t : Staging) (records : List RawRecord)
    (h : NodupKeys t) :
    (upsert_staging (upsert_staging t records).1 records).1 =
      (upsert_staging t records).1 ∧
    NodupKeys (upsert_staging t records).1 ∧
    (∀ r : RawRecord, hasKey t r.application_id = true →
      findRow (upsertOne t r) r.application_id = some (rowOfRecord r) ∧
      keysOf (upsertOne t r) = keysOf t) := by
  refine ⟨?_, ?_, ?_⟩
  · rcases records with _ | ⟨r0, rs⟩
    · rfl
    · show (upsert_staging (upsertList t (r0 :: rs)) (r0 :: rs)).1 =
        upsertList t (r0 :: rs)
      show upsertList (upsertList t (r0 :: rs)) (r0 :: rs) =
        upsertList t (r0 :: rs)
      exact upsertList_idem (r0 :: rs) t h
  · rcases records with _ | ⟨r0, rs⟩
    · exact h
    · exact nodup_upsertList (r0 :: rs) t h
  · intro r hr
    exact ⟨findRow_upsertOne_self t r, keysOf_upsertOne_of_hasKey t r hr⟩


/-- C2 (counterexample): with an empty fetch against a staging table that
already contains a bad row, the run does not short-circuit to the
success step: the archive write and the gate evaluation still happen,
the gate fails, and the run is recorded failed — contradicting the
claimed skip of steps 5-7 and the claimed success. -/
theorem empty_fetch_shortcircuit_counterexample :
    (runMain envEmptyFetch stBad).2.2 =
      .error "Data quality checks failed: loan_amount_positive: 1 failing rows" ∧
    Event.bronzeWrite "run-1" [] ∈ (runMain envEmptyFetch stBad).2.1 ∧
    Event.gateEval false ∈ (runMain envEmptyFetch stBad).2.1 ∧
    (runMain envEmptyFetch stBad).1.runs.map (fun row => row.status) =
      ["failed"] := by decide

/-- Witness for C1 at a concrete failing-gate run. -/
theorem gate_failure_blocks_watermark_witness :
    get_watermark (runMain envBase stBad).1.ingestion = some 500 ∧
    (∀ wm, Event.watermarkSet wm ∉ (runMain envBase stBad).2.1) ∧
    (runMain envBase stBad).2.2 =
      .error "Data quality checks failed: loan_amount_positive: 1 failing rows" := by
  have h := gate_failure_blocks_watermark envBase stBad [recA, recB]
    rfl rfl rfl rfl rfl rfl rfl rfl (by simp [stBad, stEmpty]) (by decide)
  exact ⟨h.1, h.2.1, h.2.2.2⟩

/-- Witness for the amended C2 at a concrete empty-fetch run. -/
theorem empty_fetch_preserves_state_witness :
    (runMain envEmptyFetch stEmpty).1.staging = [] ∧
    get_watermark (runMain envEmptyFetch stEmpty).1.ingestion = some 500 ∧
    (runMain envEmptyFetch stEmpty).2.2 = .ok () := by
  have h := empty_fetch_preserves_state envEmptyFetch stEmpty
    rfl rfl rfl rfl rfl rfl rfl rfl (by simp [stEmpty])
  exact ⟨h.1, h.2.1, (h.2.2.2.2.1 (by decide)).1⟩

/-- Witness for C3 at a concrete successful run with two records. -/
theorem watermark_advance_on_success_witness :
    compute_new_watermark [recA, recB] = some 950 ∧
    get_watermark (runMain envBase stEmpty).1.ingestion = some 950 ∧
    (runMain envBase stEmpty).2.2 = .ok () := by
  have h := watermark_advance_on_success envBase stEmpty [recA, recB]
    rfl rfl rfl rfl rfl rfl rfl rfl rfl (by simp) (by decide)
    (by
      intro r hr w hw
      rw [show get_watermark stEmpty.ingestion = some (500 : Int) from rfl]
        at hw
      have hw5 : w = 500 := (Option.some.inj hw).symm
      subst hw5
      rcases List.mem_cons.mp hr with rfl | hr2
      · decide
      · rcases List.mem_cons.mp hr2 with rfl | hr3
        · decide
        · cases hr3)
  obtain ⟨hskip, m, hcw, hwm, hmem, hub, hmono, hok⟩ := h
  have hm : m = 950 := by
    rw [show compute_new_watermark [recA, recB] = some 950 from by decide]
      at hcw
    exact (Option.some.inj hcw).symm
  subst hm
  exact ⟨by decide, hwm, hok⟩

/-- Witness for C4 at a concrete run whose merge step fails. -/
theorem run_side_effects_strictly_ordered_witness :
    ((runMain envMergeFail stEmpty).2.1.map eventStage).Chain' (· < ·) ∧
    ("run-1", [recA, recB]) ∈ (runMain envMergeFail stEmpty).1.bronze ∧
    (runMain envMergeFail stEmpty).2.2 = .error "staging upsert failed" := by
  have h := run_side_effects_strictly_ordered envMergeFail stEmpty
  have h2 := h.2 "staging upsert failed" [recA, recB]
    rfl rfl rfl rfl rfl rfl (by simp)
  exact ⟨h.1, h2.1, h2.2⟩

/-- Witness for C5 at a concrete staging state with one bad row. -/
theorem quality_gate_accumulates_all_checks_witness :
    (run_staging_checks 1000 [badRow]).failures =
      ["loan_amount_positive: 1 failing rows"] := by
  rw [(quality_gate_accumulates_all_checks 1000 [badRow]).2]
  decide

/-- Witness for C6 at a concrete table and record sequence that updates
an existing key. -/
theorem staging_upsert_idempotent_lww_witness :
    (upsert_staging (upsert_staging [rowOfRecord recA] [recA2, recB]).1
        [recA2, recB]).1 =
      (upsert_staging [rowOfRecord recA] [recA2, recB]).1 ∧
    findRow (upsertOne [rowOfRecord recA] recA2) recA2.application_id =
      some (rowOfRecord recA2) := by
  have h := staging_upsert_idempotent_lww [rowOfRecord recA] [recA2, recB]
    (by decide)
  exact ⟨h.1, (h.2.2 recA2 (by decide)).1⟩

/-- Witness for C7 at a concrete run whose fetch fails, with and without
a secondary failure while recording the failure. -/
theorem exception_recorded_and_reraised_witness :
    (runMain envFetchFail stEmpty).2.2 = .error "connection refused" ∧
    (runMain { envFetchFail with finishFailedErr := some "db down" }
        stEmpty).2.2 = .error "connection refused" := by
  have h := exception_recorded_and_reraised envFetchFail stEmpty
    "connection refused" rfl
  exact ⟨h.1, h.2.1 (some "db down")⟩

/-- Witness for C9 at a concrete staging table. -/
theorem upsert_staging_empty_noop_witness :
    upsert_staging [badRow] [] = ([badRow], 0, false) :=
  upsert_staging_empty_noop [badRow]

end DataPlatform
